import Mathlib

/-!
# Verification of the step-synchronized visualization/playback engine

Shallow embedding of the visualization and playback logic of the
`algographi-ka-ml-model` front-end (files `AlgorithmVisualizer.tsx`,
`StepByStepDisplay.tsx`, `AudioUtils.ts`), together with theorems settling
the specification claims about it.

Conventions of the embedding:
* JavaScript numbers that only ever hold integers are modelled as `Int`
  (comparisons such as `currentStep < steps.length - 1` are carried out in
  `Int` so that the JS value `-1` of `steps.length - 1` for empty `steps`
  is represented faithfully);
* an absent (`undefined`) value is `Option.none`;
* the loosely-typed `data` field of a visualization payload is modelled by
  the `JsonVal` type;
* CSS color strings are kept verbatim.
-/

/-- Colors / fills are kept as the literal strings of the source. -/
abbrev Color := String

/-! ## Array layout engine (`renderArrayVisualization`) -/

/-- One rendered bar of the array visualization: the `.bar` rect produced by
the data join in `renderArrayVisualization`, restricted to the fields the
claims speak about (fill, stroke, stroke width) plus its datum. -/
structure Bar where
  value : Int
  index : Nat
  fill : Color
  stroke : Color
  strokeWidth : Nat
deriving DecidableEq, Repr

/-- Fill rule of `renderArrayVisualization`'s bars:
`if (i === step) return "var(--current-color)"; if (i < step) return
"var(--checked-color)"; return "var(--unchecked-color)";`. -/
def barFill (step i : Nat) : Color :=
  if i = step then "var(--current-color)"
  else if i < step then "var(--checked-color)"
  else "var(--unchecked-color)"

/-- Stroke rule: `i === step ? "var(--ai-color)" : "var(--stroke-color)"`. -/
def barStroke (step i : Nat) : Color :=
  if i = step then "var(--ai-color)" else "var(--stroke-color)"

/-- Stroke width rule: `i === step ? 4 : 2`. -/
def barStrokeWidth (step i : Nat) : Nat :=
  if i = step then 4 else 2

/-- The bars produced by `renderArrayVisualization(svg, array, …, step)`:
the code maps `array.map((value, index) => …)` into `elements` and joins one
`rect.bar` per element, whose fill/stroke/stroke-width callbacks receive the
element's index. -/
def renderArrayBars (array : List Int) (step : Nat) : List Bar :=
  array.enum.map fun p =>
    { value := p.2
      index := p.1
      fill := barFill step p.1
      stroke := barStroke step p.1
      strokeWidth := barStrokeWidth step p.1 }

/-- Default used only to totalize list indexing in theorem statements. -/
def defaultBar : Bar := ⟨0, 0, "", "", 0⟩

theorem renderArrayBars_length (a : List Int) (s : Nat) :
    (renderArrayBars a s).length = a.length := by
  simp [renderArrayBars]

theorem renderArrayBars_getD (a : List Int) (s i : Nat) (hi : i < a.length) :
    (renderArrayBars a s).getD i defaultBar =
      { value := a.getD i 0, index := i, fill := barFill s i,
        stroke := barStroke s i, strokeWidth := barStrokeWidth s i } := by
  simp [renderArrayBars, List.getD_eq_getElem?_getD, List.getElem?_map,
    List.getElem?_eq_getElem hi]

/-- C1: for an array payload of length `n` and a step index `s < n`,
rendering produces exactly `n` bars; bar `i` has the "current" fill iff
`i = s`, the "processed/checked" fill iff `i < s`, the "pending" fill
otherwise, and the current bar gets stroke width 4 versus 2. -/
theorem array_bar_coloring_C1 (a : List Int) (s i : Nat)
    (hs : s < a.length) (hi : i < a.length) :
    (renderArrayBars a s).length = a.length ∧
    (((renderArrayBars a s).getD i defaultBar).fill = "var(--current-color)" ↔ i = s) ∧
    (((renderArrayBars a s).getD i defaultBar).fill = "var(--checked-color)" ↔ i < s) ∧
    (((renderArrayBars a s).getD i defaultBar).fill = "var(--unchecked-color)" ↔ s < i) ∧
    ((renderArrayBars a s).getD i defaultBar).strokeWidth
      = (if i = s then 4 else 2) := by
  refine ⟨renderArrayBars_length a s, ?_, ?_, ?_, ?_⟩ <;>
    rw [renderArrayBars_getD a s i hi] <;>
    simp only [barFill, barStrokeWidth] <;>
    rcases lt_trichotomy i s with h | h | h <;>
    simp [h, Nat.ne_of_lt, Nat.ne_of_gt, Nat.lt_asymm, le_of_lt]

/-- Witness for C1 at the concrete array `[4, 2, 3]`, step `1`, bar `2`. -/
theorem array_bar_coloring_C1_witness :
    (1 < ([4, 2, 3] : List Int).length ∧ 2 < ([4, 2, 3] : List Int).length) ∧
    ((renderArrayBars [4, 2, 3] 1).length = 3 ∧
     (((renderArrayBars [4, 2, 3] 1).getD 2 defaultBar).fill
        = "var(--current-color)" ↔ (2 : Nat) = 1) ∧
     (((renderArrayBars [4, 2, 3] 1).getD 2 defaultBar).fill
        = "var(--checked-color)" ↔ (2 : Nat) < 1) ∧
     (((renderArrayBars [4, 2, 3] 1).getD 2 defaultBar).fill
        = "var(--unchecked-color)" ↔ (1 : Nat) < 2) ∧
     ((renderArrayBars [4, 2, 3] 1).getD 2 defaultBar).strokeWidth
        = (if (2 : Nat) = 1 then 4 else 2)) :=
  ⟨⟨by decide, by decide⟩,
    array_bar_coloring_C1 [4, 2, 3] 1 2 (by decide) (by decide)⟩

/-! ## Structure classifier (`AlgorithmVisualizer` type-dispatch effect) -/

/-- Loosely-typed JSON-ish value standing for the `data` field of a
visualization payload. `jnull` is JavaScript `null`; an absent field is
modelled by `Option.none` at the use site. -/
inductive JsonVal where
  | num (n : Int)
  | str (s : String)
  | arr (elems : List JsonVal)
  | obj (fields : List (String × JsonVal))
  | jnull

/-- The renderer chosen by the dispatch in the `useEffect` of
`AlgorithmVisualizer`; `nothing` means no render function is called
(empty scene). -/
inductive RenderKind where
  | array
  | graph
  | tree
  | linkedlist
  | nothing
deriving DecidableEq, Repr

/-- `'nodes' in data.data` on an object value. -/
def hasKey (fields : List (String × JsonVal)) (k : String) : Bool :=
  fields.any fun p => p.1 == k

/-- The fallback branch of the dispatch: `data.data && typeof data.data ===
'object' && !Array.isArray(data.data) && 'nodes' in data.data` chooses the
linked-list renderer; `else if (Array.isArray(data.data))` chooses the array
renderer; otherwise nothing is rendered.  JS `null` has `typeof 'object'`
but is falsy, so it falls through both tests. -/
def detectFallback (d : Option JsonVal) : RenderKind :=
  match d with
  | some (.obj fields) => if hasKey fields "nodes" then .linkedlist else .nothing
  | some (.arr _) => .array
  | _ => .nothing

/-- The type dispatch of `AlgorithmVisualizer`'s effect: successive strict
comparisons of `data.type` against `'array' | 'graph' | 'tree' |
'linkedlist'`, else the structural fallback.  An absent tag (`none`)
compares unequal to every string. -/
def classify (ty : Option String) (d : Option JsonVal) : RenderKind :=
  match ty with
  | some t =>
      if t = "array" then .array
      else if t = "graph" then .graph
      else if t = "tree" then .tree
      else if t = "linkedlist" then .linkedlist
      else detectFallback d
  | none => detectFallback d

/-- C3: with the kind tag unset or unrecognized the classifier falls back to
structural detection: a non-array object with a `nodes` key renders as a
linked list, an array renders as an array; in particular the two concrete
scenario payloads classify as LinkedList resp. Array. -/
theorem classifier_fallback_C3 (t : String) (d : Option JsonVal)
    (fields : List (String × JsonVal)) (xs : List JsonVal)
    (ht : t ≠ "array" ∧ t ≠ "graph" ∧ t ≠ "tree" ∧ t ≠ "linkedlist")
    (hf : hasKey fields "nodes" = true) :
    classify (some t) d = detectFallback d ∧
    classify none (some (.obj fields)) = .linkedlist ∧
    classify none (some (.arr xs)) = .array ∧
    classify none (some (.obj [("nodes", .arr []), ("connections", .arr [])]))
      = .linkedlist ∧
    classify none (some (.arr [.num 4, .num 2, .num 3, .num 2, .num 1]))
      = .array := by
  obtain ⟨h1, h2, h3, h4⟩ := ht
  refine ⟨?_, ?_, rfl, rfl, rfl⟩
  · simp [classify, h1, h2, h3, h4]
  · simp [classify, detectFallback, hf]

/-- Witness for C3 at the concrete tag `"matrix"` and scenario payloads. -/
theorem classifier_fallback_C3_witness :
    (("matrix" ≠ "array" ∧ "matrix" ≠ "graph" ∧ "matrix" ≠ "tree" ∧
        "matrix" ≠ "linkedlist") ∧
      hasKey [("nodes", JsonVal.arr [])] "nodes" = true) ∧
    (classify (some "matrix") (some (.arr [.num 1])) =
        detectFallback (some (.arr [.num 1])) ∧
     classify none (some (.obj [("nodes", JsonVal.arr [])])) = .linkedlist ∧
     classify none (some (.arr [.num 7])) = .array ∧
     classify none (some (.obj [("nodes", .arr []), ("connections", .arr [])]))
        = .linkedlist ∧
     classify none (some (.arr [.num 4, .num 2, .num 3, .num 2, .num 1]))
        = .array) :=
  ⟨⟨by decide, by decide⟩,
    classifier_fallback_C3 "matrix" (some (.arr [.num 1]))
      [("nodes", JsonVal.arr [])] [.num 7] (by decide) (by decide)⟩

/-! ## Component render and the header title (C4) -/

/-- The header JSX of `AlgorithmVisualizer` evaluates
`data.type.charAt(0).toUpperCase() + data.type.slice(1)`.  When `data.type`
is `undefined`, member access `.charAt` on `undefined` throws a `TypeError`;
otherwise it produces the capitalized tag. -/
def headerTitle (ty : Option String) : Except String String :=
  match ty with
  | none => .error "TypeError: cannot read charAt of undefined"
  | some t => .ok ((t.take 1).toUpper ++ t.drop 1)

/-- One render pass of the `AlgorithmVisualizer` component: React evaluates
the JSX (including the header title) before the dispatch effect runs, so a
throwing header aborts the whole pass; otherwise the pass succeeds and the
effect picks the renderer via `classify`. -/
def renderComponent (ty : Option String) (d : Option JsonVal) :
    Except String RenderKind :=
  match headerTitle ty with
  | .error e => .error e
  | .ok _ => .ok (classify ty d)

/-- C4 (code bug evidence): processing the payload
`{ type: undefined, data: [4,2,3,2,1] }` throws a `TypeError` in the header
JSX (`data.type.charAt(0)`), even though the dispatch effect itself would
have degraded gracefully (its fallback classifies the same payload as an
array render).  The claim that processing never throws for payloads with an
absent kind tag is therefore violated by the code. -/
theorem header_throws_on_missing_type_C4 :
    renderComponent none (some (.arr [.num 4, .num 2, .num 3, .num 2, .num 1]))
      = .error "TypeError: cannot read charAt of undefined" ∧
    classify none (some (.arr [.num 4, .num 2, .num 3, .num 2, .num 1]))
      = .array ∧
    (∀ t d, renderComponent (some t) d = .ok (classify (some t) d)) :=
  ⟨rfl, rfl, fun _ _ => rfl⟩

/-! ## Graph layout engine: adjacency-list edges (C5) -/

/-- `Object.keys(graphData)` for the adjacency object modelled as an
association list. -/
def objKeys (adj : List (String × List String)) : List String :=
  adj.map Prod.fst

/-- `graphData[nodeName]` — property lookup on the adjacency object. -/
def objGet (adj : List (String × List String)) (k : String) :
    Option (List String) :=
  (adj.find? fun p => p.1 == k).map Prod.snd

/-- Edge construction of `renderGraphVisualization` for adjacency-form data:
for every key `nodeName`, every `neighborName` of
`graphData[nodeName] || []` yields an edge `{source, target}` only when
`nodeNames.includes(neighborName)`. -/
def graphEdges (adj : List (String × List String)) : List (String × String) :=
  (objKeys adj).bind fun name =>
    (((objGet adj name).getD []).filter fun nb => (objKeys adj).contains nb).map
      fun nb => (name, nb)

/-- C5: an edge `(a, b)` is rendered exactly when `a` is a declared node,
`b` occurs in `a`'s adjacency entry, and `b` is itself a declared node; in
particular both endpoints of every rendered edge are declared nodes, and an
adjacency entry naming an undeclared neighbor is silently dropped. -/
theorem graph_edges_declared_C5 (adj : List (String × List String))
    (a b : String) :
    ((a, b) ∈ graphEdges adj ↔
      a ∈ objKeys adj ∧ b ∈ (objGet adj a).getD [] ∧ b ∈ objKeys adj) ∧
    ((a, b) ∈ graphEdges adj → a ∈ objKeys adj ∧ b ∈ objKeys adj) ∧
    graphEdges [("A", ["B", "Z"]), ("B", ["A"])] = [("A", "B"), ("B", "A")] := by
  have hiff : (a, b) ∈ graphEdges adj ↔
      a ∈ objKeys adj ∧ b ∈ (objGet adj a).getD [] ∧ b ∈ objKeys adj := by
    constructor
    · intro h
      simp only [graphEdges, List.mem_bind, List.mem_map, List.mem_filter] at h
      obtain ⟨name, hname, nb, ⟨hnb, hcont⟩, heq⟩ := h
      obtain ⟨rfl, rfl⟩ := Prod.mk.injEq .. ▸ heq
      exact ⟨hname, hnb, by simpa using hcont⟩
    · intro ⟨ha, hb, hb2⟩
      simp only [graphEdges, List.mem_bind, List.mem_map, List.mem_filter]
      exact ⟨a, ha, b, ⟨hb, by simpa using hb2⟩, rfl⟩
  exact ⟨hiff, fun h => ⟨(hiff.mp h).1, (hiff.mp h).2.2⟩, by decide⟩

/-- Witness for C5 at a concrete adjacency object whose entry for `"A"`
names the undeclared neighbor `"Z"`: the edge `("A", "B")` is rendered, and
the evaluation shows the `("A", "Z")` edge is dropped. -/
theorem graph_edges_declared_C5_witness :
    (("A", "B") ∈ graphEdges [("A", ["B", "Z"]), ("B", ["A"])] ↔
      "A" ∈ objKeys [("A", ["B", "Z"]), ("B", ["A"])] ∧
      "B" ∈ (objGet [("A", ["B", "Z"]), ("B", ["A"])] "A").getD [] ∧
      "B" ∈ objKeys [("A", ["B", "Z"]), ("B", ["A"])]) ∧
    (("A", "B") ∈ graphEdges [("A", ["B", "Z"]), ("B", ["A"])] →
      "A" ∈ objKeys [("A", ["B", "Z"]), ("B", ["A"])] ∧
      "B" ∈ objKeys [("A", ["B", "Z"]), ("B", ["A"])]) ∧
    graphEdges [("A", ["B", "Z"]), ("B", ["A"])] = [("A", "B"), ("B", "A")] :=
  graph_edges_declared_C5 [("A", ["B", "Z"]), ("B", ["A"])] "A" "B"

/-! ## Linked-list layout engine (`renderLinkedListVisualization`) -/

/-- A linked-list payload node: `{id, value}`. -/
structure LLNode where
  id : String
  value : Int
deriving DecidableEq, Repr

/-- Node-box fill rule of the linked-list engine, written exactly as the
callback `(_, i) => { if (i === step) return "#f59e0b"; if (i < step)
return "#10b981"; return "#3b82f6"; }`. -/
def llNodeFill (step i : Nat) : Color :=
  if i = step then "#f59e0b"
  else if i < step then "#10b981"
  else "#3b82f6"

/-- `isCircular` of `renderLinkedListVisualization`:
`connections.some(conn => conn.from === tail && conn.to === head)`.
Connections are `(from, to)` pairs; `head`/`tail` may be absent
(`undefined`), in which case the strict comparison with a string id is
false. -/
def isCircular (connections : List (String × String))
    (head tail : Option String) : Bool :=
  connections.any fun conn => (some conn.1 == tail) && (some conn.2 == head)

/-- The scene elements of the linked-list render that the claims speak
about: the per-node boxes, the cells of the "Array Representation" strip,
and the circular indicator. -/
inductive LLElem where
  | nodeBox (index : Nat) (fill : Color)
  | arrayBox (index : Nat) (fill : Color)
  | circularIndicator
deriving DecidableEq, Repr

/-- The scene built by `renderLinkedListVisualization`.

* Node boxes come from the data join `nodeGroups = …data(nodePositions)
  .enter().append("g")`, then `nodeGroups.append("rect")`: the appended
  rects inherit the join indices, so the fill callback's `i` is the node
  index.
* The array-strip cells are appended one at a time inside
  `nodePositions.forEach(…)` via `g.append("rect")`: each appended rect is
  a fresh single-element selection, so d3 invokes the fill callback with
  index `0` for every cell — the cell's own index never reaches the
  callback.
* The circular indicator is appended exactly when `isCircular` holds. -/
def renderLinkedList (nodes : List LLNode)
    (connections : List (String × String)) (head tail : Option String)
    (step : Nat) : List LLElem :=
  (nodes.enum.map fun p => LLElem.nodeBox p.1 (llNodeFill step p.1)) ++
  (nodes.enum.map fun p => LLElem.arrayBox p.1 (llNodeFill step 0)) ++
  (if isCircular connections head tail then [LLElem.circularIndicator] else [])

/-- C6: the circular flag holds iff some declared connection goes from the
payload's `tail` to its `head`; the circularity indicator is in the scene
exactly when the flag holds; and the two concrete scenarios of the spec
(`n1→n2, n2→n3, n3→n1` with head `n1`, tail `n3`, with and without the
closing edge) evaluate to `true` resp. `false`. -/
theorem linkedlist_circular_C6 (nodes : List LLNode)
    (conns : List (String × String)) (head tail : Option String) (step : Nat) :
    (LLElem.circularIndicator ∈ renderLinkedList nodes conns head tail step ↔
      isCircular conns head tail = true) ∧
    (isCircular conns head tail = true ↔
      ∃ conn ∈ conns, some conn.1 = tail ∧ some conn.2 = head) ∧
    isCircular [("n1", "n2"), ("n2", "n3"), ("n3", "n1")]
      (some "n1") (some "n3") = true ∧
    isCircular [("n1", "n2"), ("n2", "n3")] (some "n1") (some "n3") = false := by
  refine ⟨?_, ?_, by decide, by decide⟩
  · constructor
    · intro h
      simp only [renderLinkedList, List.mem_append, List.mem_map] at h
      rcases h with (⟨p, _, hp⟩ | ⟨p, _, hp⟩) | h
      · exact absurd hp (by simp)
      · exact absurd hp (by simp)
      · by_cases hc : isCircular conns head tail
        · exact hc
        · simp [hc] at h
    · intro h
      simp [renderLinkedList, h]
  · simp [isCircular, List.any_eq_true, Bool.and_eq_true, beq_iff_eq]

/-- C7 (code bug evidence): at step `1` on a two-node list, the node box of
index `1` is filled with the current color `#f59e0b`, but the corresponding
array-strip cell is filled `#10b981` (the processed color) — not the current
color — because every strip cell's fill callback runs with d3 index `0`.
The whole strip is uniformly `#10b981`, so the strip does not follow the
per-cell rule the claim states. -/
theorem linkedlist_strip_C7 :
    LLElem.nodeBox 1 "#f59e0b" ∈
      renderLinkedList [⟨"n1", 1⟩, ⟨"n2", 2⟩] [("n1", "n2")]
        (some "n1") (some "n2") 1 ∧
    LLElem.arrayBox 1 "#10b981" ∈
      renderLinkedList [⟨"n1", 1⟩, ⟨"n2", 2⟩] [("n1", "n2")]
        (some "n1") (some "n2") 1 ∧
    LLElem.arrayBox 1 "#f59e0b" ∉
      renderLinkedList [⟨"n1", 1⟩, ⟨"n2", 2⟩] [("n1", "n2")]
        (some "n1") (some "n2") 1 ∧
    (renderLinkedList [⟨"n1", 1⟩, ⟨"n2", 2⟩] [("n1", "n2")]
        (some "n1") (some "n2") 1).filter
      (fun e => match e with | .arrayBox _ _ => true | _ => false)
      = [.arrayBox 0 "#10b981", .arrayBox 1 "#10b981"] := by
  refine ⟨?_, ?_, ?_, ?_⟩ <;> decide

/-! ## Playback controller (`StepByStepDisplay`) and narration
(`AudioUtils`) -/

/-- The state of `StepByStepDisplay` together with the external pieces it
drives: `currentStep` (lifted state via `onStepChange`), the `isPlaying`
flag, whether the playback interval of the effect is live, and the queue of
utterances held by the global `speechSynthesis` service. -/
structure CtrlState where
  currentStep : Nat
  isPlaying : Bool
  timerActive : Bool
  audio : List String
deriving DecidableEq, Repr

/-- `speechSynthesis.cancel()`: removes all utterances from the queue. -/
def cancelAudio (_q : List String) : List String := []

/-- `speak(text)` of `AudioUtils.ts`: first `speechSynthesis.cancel()`,
then `speechSynthesis.speak(utterance)`, which enqueues the new
utterance. -/
def speak (q : List String) (text : String) : List String :=
  (cancelAudio q).concat text

/-- `stopSpeaking()` of `AudioUtils.ts`. -/
def stopSpeaking (q : List String) : List String := cancelAudio q

/-- `handleNext`: if `currentStep < steps.length - 1` (JS number
comparison, hence over `Int`), commit the incremented step and speak the
new step's description if `steps[newStep]` exists. -/
def handleNext (steps : List String) (st : CtrlState) : CtrlState :=
  if (st.currentStep : Int) < (steps.length : Int) - 1 then
    { st with
      currentStep := st.currentStep + 1
      audio :=
        if st.currentStep + 1 < steps.length then
          speak st.audio (steps.getD (st.currentStep + 1) "")
        else st.audio }
  else st

/-- `handlePrevious`: if `currentStep > 0`, commit the decremented step and
speak the new step's description if `steps[newStep]` exists. -/
def handlePrevious (steps : List String) (st : CtrlState) : CtrlState :=
  if 0 < st.currentStep then
    { st with
      currentStep := st.currentStep - 1
      audio :=
        if st.currentStep - 1 < steps.length then
          speak st.audio (steps.getD (st.currentStep - 1) "")
        else st.audio }
  else st

/-- `handlePause`: clear playing, clear the interval, stop audio. -/
def handlePause (st : CtrlState) : CtrlState :=
  { st with isPlaying := false, timerActive := false,
            audio := stopSpeaking st.audio }

/-- `handleReset`: `handlePause()`, jump to step 0, speak step 0 if it
exists. -/
def handleReset (steps : List String) (st : CtrlState) : CtrlState :=
  let p := handlePause st
  { p with
    currentStep := 0
    audio :=
      if 0 < steps.length then speak p.audio (steps.getD 0 "")
      else p.audio }

/-- `handlePlay`: `if (currentStep >= steps.length - 1) onStepChange(0);`
then `setIsPlaying(true)`. -/
def handlePlay (len : Nat) (st : CtrlState) : CtrlState :=
  let st1 :=
    if (st.currentStep : Int) ≥ (len : Int) - 1 then
      { st with currentStep := 0 }
    else st
  { st1 with isPlaying := true }

/-- The playback `useEffect` after its dependencies change (the cleanup of
the previous run has already cleared any interval): if playing and not at
the last index, a fresh interval is created; otherwise no interval exists,
and if `currentStep >= steps.length - 1` the effect additionally calls
`setIsPlaying(false)` (auto-stop at the end). -/
def playbackEffect (len : Nat) (st : CtrlState) : CtrlState :=
  if st.isPlaying = true ∧ (st.currentStep : Int) < (len : Int) - 1 then
    { st with timerActive := true }
  else if (st.currentStep : Int) ≥ (len : Int) - 1 then
    { st with isPlaying := false, timerActive := false }
  else
    { st with timerActive := false }

theorem handleNext_currentStep_of_lt (steps : List String) (st : CtrlState)
    (h : (st.currentStep : Int) < (steps.length : Int) - 1) :
    (handleNext steps st).currentStep = st.currentStep + 1 := by
  simp [handleNext, h]

theorem handleNext_iterate_currentStep (steps : List String) :
    ∀ (k : Nat) (st : CtrlState), st.currentStep + k < steps.length →
      ((handleNext steps)^[k] st).currentStep = st.currentStep + k := by
  intro k
  induction k with
  | zero => intro st _; simp
  | succ n ih =>
      intro st h
      rw [Function.iterate_succ_apply]
      have hc : (st.currentStep : Int) < (steps.length : Int) - 1 := by omega
      have hstep := handleNext_currentStep_of_lt steps st hc
      have := ih (handleNext steps st) (by omega)
      omega

/-- C2: starting from `currentStep = 0`, `k` calls of `next()` land on
`currentStep = k` for every `k` up to the last index (each call increments
by exactly one); a `next()` from the last index leaves `currentStep`
unchanged, and if the controller is playing, the playback effect then
transitions it to not-playing with no live interval (auto-stop instead of
looping). -/
theorem playback_next_C2 (steps : List String) (k : Nat) (st : CtrlState)
    (hk : k < steps.length)
    (hst : st.currentStep = steps.length - 1)
    (hp : st.isPlaying = true) :
    ((handleNext steps)^[k] ⟨0, false, false, []⟩).currentStep = k ∧
    (handleNext steps st).currentStep = st.currentStep ∧
    (playbackEffect steps.length (handleNext steps st)).isPlaying = false ∧
    (playbackEffect steps.length (handleNext steps st)).timerActive = false := by
  have hlen : 1 ≤ steps.length := Nat.one_le_of_lt (Nat.lt_of_le_of_lt (Nat.zero_le k) hk)
  have hnolt : ¬ ((st.currentStep : Int) < (steps.length : Int) - 1) := by omega
  have hfix : handleNext steps st = st := by simp [handleNext, hnolt]
  have hge : ((st.currentStep : Int) ≥ (steps.length : Int) - 1) := by omega
  refine ⟨?_, by rw [hfix], ?_, ?_⟩
  · have := handleNext_iterate_currentStep steps k ⟨0, false, false, []⟩ (by simpa using hk)
    simpa using this
  · rw [hfix]; simp [playbackEffect, hnolt, hge, hp]
  · rw [hfix]; simp [playbackEffect, hnolt, hge, hp]

/-- Witness for C2: three steps, `k = 2`, a playing state at the last
index `2`. -/
theorem playback_next_C2_witness :
    (2 < (["a", "b", "c"] : List String).length ∧
      (⟨2, true, false, []⟩ : CtrlState).currentStep
        = (["a", "b", "c"] : List String).length - 1 ∧
      (⟨2, true, false, []⟩ : CtrlState).isPlaying = true) ∧
    (((handleNext ["a", "b", "c"])^[2] ⟨0, false, false, []⟩).currentStep = 2 ∧
     (handleNext ["a", "b", "c"] ⟨2, true, false, []⟩).currentStep
        = (⟨2, true, false, []⟩ : CtrlState).currentStep ∧
     (playbackEffect (["a", "b", "c"] : List String).length
        (handleNext ["a", "b", "c"] ⟨2, true, false, []⟩)).isPlaying = false ∧
     (playbackEffect (["a", "b", "c"] : List String).length
        (handleNext ["a", "b", "c"] ⟨2, true, false, []⟩)).timerActive = false) :=
  ⟨⟨by decide, by decide, by decide⟩,
    playback_next_C2 ["a", "b", "c"] 2 ⟨2, true, false, []⟩
      (by decide) (by decide) (by decide)⟩

/-- C10: `play()` called with `currentStep` at the last index first resets
it to 0 (and sets playing, leaving the interval untouched); and for a
one-step sequence the effect run that follows any `play()` immediately
returns to not-playing with no interval ever created, so no tick and no
increment can occur. -/
theorem playback_play_C10 (len : Nat) (st st2 : CtrlState)
    (hst : st.currentStep = len - 1) (hlen : 1 ≤ len) :
    (handlePlay len st).currentStep = 0 ∧
    (handlePlay len st).isPlaying = true ∧
    (handlePlay len st).timerActive = st.timerActive ∧
    (playbackEffect 1 (handlePlay 1 st2)).isPlaying = false ∧
    (playbackEffect 1 (handlePlay 1 st2)).timerActive = false ∧
    (playbackEffect 1 (handlePlay 1 st2)).currentStep = 0 := by
  have hge : (st.currentStep : Int) ≥ (len : Int) - 1 := by omega
  have hge2 : (st2.currentStep : Int) ≥ (1 : Int) - 1 := by omega
  have hplay2 : handlePlay 1 st2 =
      { st2 with currentStep := 0, isPlaying := true } := by
    simp [handlePlay, hge2]
  refine ⟨?_, ?_, ?_, ?_, ?_, ?_⟩ <;>
    simp [handlePlay, playbackEffect, hge, hplay2]

/-- Witness for C10 with `len = 3`, a state at the last index `2`, and an
arbitrary second state for the one-step scenario. -/
theorem playback_play_C10_witness :
    ((⟨2, false, false, []⟩ : CtrlState).currentStep = 3 - 1 ∧ 1 ≤ 3) ∧
    ((handlePlay 3 ⟨2, false, false, []⟩).currentStep = 0 ∧
     (handlePlay 3 ⟨2, false, false, []⟩).isPlaying = true ∧
     (handlePlay 3 ⟨2, false, false, []⟩).timerActive
        = (⟨2, false, false, []⟩ : CtrlState).timerActive ∧
     (playbackEffect 1 (handlePlay 1 ⟨0, false, false, []⟩)).isPlaying = false ∧
     (playbackEffect 1 (handlePlay 1 ⟨0, false, false, []⟩)).timerActive = false ∧
     (playbackEffect 1 (handlePlay 1 ⟨0, false, false, []⟩)).currentStep = 0) :=
  ⟨⟨by decide, by decide⟩,
    playback_play_C10 3 ⟨2, false, false, []⟩ ⟨0, false, false, []⟩
      (by decide) (by decide)⟩

/-- C8: narration is exclusive.  `speak` always runs
`speechSynthesis.cancel()` before enqueueing, so the queue it leaves behind
is exactly the one new utterance and the intermediate queue is empty; every
committed step change (`next` below the last index, `previous` above 0,
`reset`) therefore leaves exactly one utterance queued, whatever was in
flight before. -/
theorem narration_exclusive_C8 (steps : List String) (st : CtrlState)
    (q : List String) (t : String)
    (hn : (st.currentStep : Int) < (steps.length : Int) - 1)
    (hp : 0 < st.currentStep) :
    speak q t = [t] ∧
    cancelAudio q = [] ∧
    (handleNext steps st).audio = [steps.getD (st.currentStep + 1) ""] ∧
    (handlePrevious steps st).audio = [steps.getD (st.currentStep - 1) ""] ∧
    (handleReset steps st).audio = [steps.getD 0 ""] := by
  have hlt : st.currentStep + 1 < steps.length := by omega
  have hlt2 : st.currentStep - 1 < steps.length := by omega
  have hlen : 0 < steps.length := by omega
  refine ⟨rfl, rfl, ?_, ?_, ?_⟩
  · simp [handleNext, hn, hlt, speak, cancelAudio]
  · simp [handlePrevious, hp, hlt2, speak, cancelAudio]
  · simp [handleReset, handlePause, hlen, speak, stopSpeaking, cancelAudio]

/-- Witness for C8: steps `["a","b","c"]`, a state at step 1 with two stale
utterances still queued, and an unrelated nonempty queue. -/
theorem narration_exclusive_C8_witness :
    (((⟨1, false, false, ["old1", "old2"]⟩ : CtrlState).currentStep : Int)
        < ((["a", "b", "c"] : List String).length : Int) - 1 ∧
      0 < (⟨1, false, false, ["old1", "old2"]⟩ : CtrlState).currentStep) ∧
    (speak ["u", "v"] "w" = ["w"] ∧
     cancelAudio ["u", "v"] = [] ∧
     (handleNext ["a", "b", "c"] ⟨1, false, false, ["old1", "old2"]⟩).audio
        = ["c"] ∧
     (handlePrevious ["a", "b", "c"] ⟨1, false, false, ["old1", "old2"]⟩).audio
        = ["a"] ∧
     (handleReset ["a", "b", "c"] ⟨1, false, false, ["old1", "old2"]⟩).audio
        = ["a"]) :=
  ⟨⟨by decide, by decide⟩,
    narration_exclusive_C8 ["a", "b", "c"] ⟨1, false, false, ["old1", "old2"]⟩
      ["u", "v"] "w" (by decide) (by decide)⟩

/-! ## Graph node click handler (`renderGraphVisualization`) -/

/-- A simulation node of the graph engine: position `x, y` and the pin
override fields `fx, fy` (JS `null` when unpinned). -/
structure GNode where
  x : Int
  y : Int
  fx : Option Int
  fy : Option Int
deriving DecidableEq, Repr

/-- Start of the click handler: `d.fx = d.x; d.fy = d.y;` — the node is
pinned at its current position for the duration of the pulse. -/
def clickStart (d : GNode) : GNode :=
  { d with fx := some d.x, fy := some d.y }

/-- End of the pulse transition: the `on("end", …)` callback runs
`d.fx = null; d.fy = null;`, unpinning the node (the visual transform has
returned to `translate(0, 0)`). -/
def clickEnd (d : GNode) : GNode :=
  { d with fx := none, fy := none }

/-- The complete click pulse as it acts on the node's fields. -/
def clickPulse (d : GNode) : GNode := clickEnd (clickStart d)

/-- C9 counterexample: on the concrete node at `(10, 20)` with no pins, the
click handler immediately sets both pin fields, so the claim that "no pin
field is set during the pulse" is false. -/
theorem graph_click_pin_C9_counterexample :
    ¬ ((clickStart ⟨10, 20, none, none⟩).fx = none ∧
       (clickStart ⟨10, 20, none, none⟩).fy = none) := by
  decide

/-- C9 (amended): a click starts a transient pulse during which the node is
temporarily pinned at its current position (`fx = x`, `fy = y`); the handler
never changes `x` or `y`, and when the pulse ends both pin fields are
cleared again, so after the click completes the node is unpinned and its
position fields are exactly what they were before. -/
theorem graph_click_pulse_C9 (d : GNode) :
    (clickStart d).fx = some d.x ∧
    (clickStart d).fy = some d.y ∧
    (clickStart d).x = d.x ∧
    (clickStart d).y = d.y ∧
    (clickPulse d).x = d.x ∧
    (clickPulse d).y = d.y ∧
    (clickPulse d).fx = none ∧
    (clickPulse d).fy = none :=
  ⟨rfl, rfl, rfl, rfl, rfl, rfl, rfl, rfl⟩
